import Mathlib

/-!
Verification of the HTTP/2 protocol engine core (stream state machine,
flow controllers, settings store and header utilities) against its
natural-language specification.  Each definition is a shallow embedding of
the corresponding Go function; machine integers (`int`, `uint32`) are
modelled as `Int`/`Nat`.
-/

namespace Http2

/-- The seven stream states (`StreamState` constants in the source). -/
inductive StreamState
  | idle
  | reservedLocal
  | reservedRemote
  | open_
  | halfClosedLocal
  | halfClosedRemote
  | closed
deriving DecidableEq, Fintype

/-- Transition direction (`dir` type: `recv` or `send`). -/
inductive Dir
  | recv
  | send
deriving DecidableEq, Fintype

/-- Frame type: a `uint8` code (`FrameType` in the source). -/
abbrev FrameType := Fin 256

/-- Modelled from the spec: the frame-type constant declarations are not under
src/; the numeric codes follow the wire codes of the frame names the spec
lists (DATA, HEADERS, PRIORITY, RST_STREAM, SETTINGS, PUSH_PROMISE, PING,
GOAWAY, WINDOW_UPDATE, CONTINUATION). Only their distinctness matters here. -/
def frameData : FrameType := 0

def frameHeaders : FrameType := 1

def framePriority : FrameType := 2

def frameRSTStream : FrameType := 3

def frameSettings : FrameType := 4

def framePushPromise : FrameType := 5

def framePing : FrameType := 6

def frameGoAway : FrameType := 7

def frameWindowUpdate : FrameType := 8

def frameContinuation : FrameType := 9

/-- Error codes (`ErrCode` constants rendered by `ErrCode.String`). -/
inductive ErrCode
  | no
  | protocol
  | internal
  | flowControl
  | settingsTimeout
  | streamClosed
  | frameSize
  | refusedStream
  | cancel
  | compression
  | connect
  | enhanceYourCalm
  | inadequateSecurity
  | http11Required
deriving DecidableEq

/-- Shallow embedding of `dir.transition` (part_000 lines 220-333).
Returns `some to` when the Go function returns `ok = true` with destination
state `to`, and `none` when it returns `ok = false`.  The trailing
`endStream` block mirrors the source's END_STREAM post-processing. -/
def dirTransition (d : Dir) (s : StreamState) (ft : FrameType) (endStream : Bool) :
    Option StreamState :=
  let base : Option StreamState :=
    match d, s with
    | .recv, .idle =>
      if ft = frameHeaders then some .open_
      else if ft = framePriority then some .idle
      else if ft = framePushPromise then some .reservedRemote
      else none
    | .recv, .reservedLocal =>
      if ft = framePriority ∨ ft = frameWindowUpdate then some .reservedLocal
      else if ft = frameRSTStream then some .closed
      else none
    | .recv, .halfClosedRemote =>
      if ft = framePriority ∨ ft = frameWindowUpdate then some .halfClosedRemote
      else if ft = frameRSTStream then some .closed
      else none
    | .recv, .reservedRemote =>
      if ft = frameHeaders then some .halfClosedLocal
      else if ft = framePriority then some .reservedRemote
      else if ft = frameRSTStream then some .closed
      else none
    | .recv, .open_ =>
      if ft = frameRSTStream then some .closed else some .open_
    | .recv, .halfClosedLocal =>
      if ft = frameRSTStream then some .closed else some .halfClosedLocal
    | .recv, .closed =>
      if ft = framePriority then some .closed else none
    | .send, .idle =>
      if ft = frameHeaders then some .open_
      else if ft = framePriority then some .idle
      else if ft = framePushPromise then some .reservedLocal
      else none
    | .send, .reservedLocal =>
      if ft = frameHeaders then some .halfClosedRemote
      else if ft = framePriority then some .reservedLocal
      else if ft = frameRSTStream then some .closed
      else none
    | .send, .reservedRemote =>
      if ft = framePriority ∨ ft = frameWindowUpdate then some .reservedRemote
      else if ft = frameRSTStream then some .closed
      else none
    | .send, .halfClosedLocal =>
      if ft = framePriority ∨ ft = frameWindowUpdate then some .halfClosedLocal
      else if ft = frameRSTStream then some .closed
      else none
    | .send, .open_ =>
      if ft = frameRSTStream then some .closed else some .open_
    | .send, .halfClosedRemote =>
      if ft = frameData ∨ ft = frameHeaders ∨ ft = framePriority then some .halfClosedRemote
      else if ft = frameRSTStream then some .closed
      else none
    | .send, .closed =>
      if ft = framePriority then some .closed else none
  match base with
  | none => none
  | some t =>
    if endStream then
      match t with
      | .open_ => some (if d = .recv then .halfClosedRemote else .halfClosedLocal)
      | .halfClosedLocal => some .closed
      | .halfClosedRemote => some .closed
      | other => some other
    else some t

/-- The END_STREAM promotion exactly as the claim words it: an Open result
becomes HalfClosedRemote (receive) or HalfClosedLocal (send); a HalfClosed
result becomes Closed; anything else is unchanged. -/
def endStreamPromoteSpec (d : Dir) (t : StreamState) : StreamState :=
  match t with
  | .open_ => if d = .recv then .halfClosedRemote else .halfClosedLocal
  | .halfClosedLocal => .closed
  | .halfClosedRemote => .closed
  | other => other

set_option maxRecDepth 2048 in
theorem dirTransition_true_eq_map (d : Dir) (s : StreamState) (ft : FrameType) :
    dirTransition d s ft true = Option.map (endStreamPromoteSpec d) (dirTransition d s ft false) := by
  revert ft s d
  decide

/-- C1: for every direction, start state and frame type on which the base
transition succeeds (the transition evaluated without END_STREAM), the
transition with END_STREAM set returns the base result promoted per the
claim: Open becomes HalfClosedRemote (receive) / HalfClosedLocal (send),
HalfClosedLocal/HalfClosedRemote become Closed; without END_STREAM the base
result is returned unchanged. -/
theorem c1_endStream_post (d : Dir) (s : StreamState) (ft : FrameType)
    (t0 : StreamState) (h : dirTransition d s ft false = some t0) :
    dirTransition d s ft true = some (endStreamPromoteSpec d t0) := by
  rw [dirTransition_true_eq_map, h]
  rfl

/-- Witness for C1 at a concrete input: sending HEADERS with END_STREAM from
Idle lands in HalfClosedLocal. -/
theorem c1_endStream_post_witness :
    dirTransition .send .idle frameHeaders true = some .halfClosedLocal := by
  have h := c1_endStream_post .send .idle frameHeaders .open_ (by decide)
  simpa using h

/-- Result of `stream.transition` (part_000 lines 56-129): the returned
`(StreamState, error)` pair collapsed to the cases the source produces. -/
inductive TransResult
  | ok (t : StreamState)
  | ignored
  | errClosedSend
  | errBadStateSend
  | streamErr (code : ErrCode)
  | connErr (code : ErrCode)
deriving DecidableEq

/-- Embeds `time.Duration(5)*time.Second` in nanoseconds. -/
def fiveSecondsNs : Int := 5000000000

/-- Shallow embedding of `stream.transition` (part_000 lines 56-129).
`sinceClosedNs` stands for `time.Since(s.closed)` in nanoseconds.  The
compare-and-swap loop always succeeds in this sequential model, so a
successful `dir.transition` yields `.ok`; the flag updates performed on a
successful swap do not affect the returned value and are not modelled. -/
def streamTransition (d : Dir) (s : StreamState) (resetSent resetReceived : Bool)
    (sinceClosedNs : Int) (ft : FrameType) (endStream : Bool) : TransResult :=
  match dirTransition d s ft endStream with
  | some t => .ok t
  | none =>
    match d with
    | .send =>
      if s = .closed then
        if ft = frameRSTStream then .ignored else .errClosedSend
      else .errBadStateSend
    | .recv =>
      if resetReceived then .streamErr .streamClosed
      else if resetSent then
        if sinceClosedNs ≤ fiveSecondsNs then .ignored
        else .streamErr .streamClosed
      else
        match s with
        | .halfClosedRemote => .connErr .streamClosed
        | .closed =>
          if ft = frameRSTStream ∨ ft = frameWindowUpdate then
            if sinceClosedNs ≤ fiveSecondsNs then .ignored
            else .connErr .protocol
          else .connErr .protocol
        | _ => .connErr .protocol

/-- C3 counterexample: a stream in state Closed with `resetReceived` set (the
normal state after receiving RST_STREAM) receives a WINDOW_UPDATE immediately
after the close; the code returns a stream error STREAM_CLOSED instead of
silently ignoring it, refuting the claim as stated. -/
theorem c3_closed_grace_counterexample :
    streamTransition .recv .closed false true 0 frameWindowUpdate false
        = .streamErr .streamClosed ∧
      streamTransition .recv .closed false true 0 frameWindowUpdate false ≠ .ignored := by
  constructor <;> decide

/-- C3 (amended): on a Closed stream with neither reset flag set, a received
WINDOW_UPDATE or RST_STREAM is ignored within the 5-second grace window and
is a connection error PROTOCOL_ERROR afterwards; with `resetReceived` set it
is a stream error STREAM_CLOSED regardless of time; with `resetSent` set it
is ignored within 5 seconds and a stream error STREAM_CLOSED afterwards. -/
theorem c3_closed_grace_amended (sinceClosedNs : Int) (ft : FrameType) (es : Bool)
    (hft : ft = frameWindowUpdate ∨ ft = frameRSTStream) :
    (streamTransition .recv .closed false false sinceClosedNs ft es
        = if sinceClosedNs ≤ fiveSecondsNs then .ignored else .connErr .protocol)
      ∧ streamTransition .recv .closed false true sinceClosedNs ft es
        = .streamErr .streamClosed
      ∧ streamTransition .recv .closed true false sinceClosedNs ft es
        = if sinceClosedNs ≤ fiveSecondsNs then .ignored
          else .streamErr .streamClosed := by
  rcases hft with h | h <;> subst h <;> cases es <;>
    refine ⟨?_, ?_, ?_⟩ <;> simp [streamTransition, dirTransition,
      frameWindowUpdate, frameRSTStream, framePriority]

/-- Witness for C3 (amended): a WINDOW_UPDATE received 2 seconds after the
close of a stream that was closed without any RST_STREAM is ignored. -/
theorem c3_closed_grace_amended_witness :
    streamTransition .recv .closed false false 2000000000 frameWindowUpdate false
      = .ignored := by
  have h := (c3_closed_grace_amended 2000000000 frameWindowUpdate false (Or.inl rfl)).1
  simpa using h

/-- C4 counterexample: a WINDOW_UPDATE received on a HalfClosedRemote stream
is accepted without a state change, not treated as a connection error
STREAM_CLOSED, refuting the claim as stated. -/
theorem c4_halfClosedRemote_counterexample :
    streamTransition .recv .halfClosedRemote false false 0 frameWindowUpdate false
        = .ok .halfClosedRemote ∧
      streamTransition .recv .halfClosedRemote false false 0 frameWindowUpdate false
        ≠ .connErr .streamClosed := by
  constructor <;> decide

set_option maxRecDepth 2048 in
theorem c4_dirTransition_none_of_other (ft : FrameType) (es : Bool)
    (h : ¬(ft = frameRSTStream ∨ ft = framePriority ∨ ft = frameWindowUpdate)) :
    dirTransition .recv .halfClosedRemote ft es = none := by
  revert h
  revert es ft
  decide

/-- C4 (amended): on a HalfClosedRemote stream with neither reset flag set, a
received RST_STREAM transitions to Closed; received PRIORITY and
WINDOW_UPDATE frames (without END_STREAM) are accepted leaving the state
unchanged; a received frame of any other type is a connection error
STREAM_CLOSED. -/
theorem c4_halfClosedRemote_amended (ft : FrameType) (sinceClosedNs : Int) (es : Bool) :
    streamTransition .recv .halfClosedRemote false false sinceClosedNs frameRSTStream es
        = .ok .closed
      ∧ streamTransition .recv .halfClosedRemote false false sinceClosedNs framePriority false
        = .ok .halfClosedRemote
      ∧ streamTransition .recv .halfClosedRemote false false sinceClosedNs frameWindowUpdate false
        = .ok .halfClosedRemote
      ∧ (¬(ft = frameRSTStream ∨ ft = framePriority ∨ ft = frameWindowUpdate) →
          streamTransition .recv .halfClosedRemote false false sinceClosedNs ft es
            = .connErr .streamClosed) := by
  refine ⟨?_, ?_, ?_, fun h => ?_⟩
  · cases es <;> rfl
  · rfl
  · rfl
  · rw [streamTransition, c4_dirTransition_none_of_other ft es h]
    rfl

/-- Witness for C4 (amended): a DATA frame received on a HalfClosedRemote
stream is a connection error STREAM_CLOSED. -/
theorem c4_halfClosedRemote_amended_witness :
    streamTransition .recv .halfClosedRemote false false 0 frameData false
      = .connErr .streamClosed := by
  have h := (c4_halfClosedRemote_amended frameData 0 false).2.2.2 (by decide)
  simpa using h

/-- Modelled from the spec: the constant `maxInitialWindowSize` is declared
outside src/; the spec bounds INITIAL_WINDOW_SIZE by `2^31 - 1`. -/
def maxInitialWindowSize : Int := 2147483647

/-- Modelled from the spec: the constant `defaultInitialWindowSize` is
declared outside src/; the spec says the initial window is 65535. -/
def defaultInitialWindowSize : Int := 65535

/-- State of the receive flow controller `flowController` (part_001 lines
59-66): `win`, `winLowerBound`, `winUpperBound`, `processedWin`. -/
structure RecvFlow where
  win : Int
  winLowerBound : Int
  winUpperBound : Int
  processedWin : Int
deriving DecidableEq

/-- An error value as produced by the flow controllers: a connection error, a
stream error (each carrying an `ErrCode`), or a plain `errors.New` error. -/
inductive HErr
  | conn (code : ErrCode)
  | stream (code : ErrCode)
  | generic
deriving DecidableEq

/-- Embeds `flowController.consumeBytes` (part_001 lines 115-136) for the
connection-level controller (`c.s.id == 0`): the window is decremented
before the lower-bound check, and a violation is a connection error
FLOW_CONTROL_ERROR. -/
def consumeBytesConn (c : RecvFlow) (n : Int) : RecvFlow × Option HErr :=
  if n ≤ 0 then (c, none)
  else
    let c' : RecvFlow := ⟨c.win - n, c.winLowerBound, c.winUpperBound, c.processedWin⟩
    if c'.win < c.winLowerBound then (c', some (.conn .flowControl))
    else (c', none)

/-- Embeds `flowController.consumeBytes` (part_001 lines 115-136) for a stream-level
controller (`c.s.id != 0`): first charges the connection controller
(returning its error, with the stream window untouched, if it fails), then
decrements the stream window and checks its lower bound, a violation being a
stream error FLOW_CONTROL_ERROR. -/
def consumeBytesStream (conn strm : RecvFlow) (n : Int) :
    RecvFlow × RecvFlow × Option HErr :=
  if n ≤ 0 then (conn, strm, none)
  else
    match consumeBytesConn conn n with
    | (conn', some e) => (conn', strm, some e)
    | (conn', none) =>
      let strm' : RecvFlow := ⟨strm.win - n, strm.winLowerBound, strm.winUpperBound, strm.processedWin⟩
      if strm'.win < strm.winLowerBound then (conn', strm', some (.stream .flowControl))
      else (conn', strm', none)

/-- C5: for every stream-level receive flow controller and n > 0,
`consumeBytes n` decreases the current window by n on both the stream and the
connection controller, and fails with FLOW_CONTROL_ERROR exactly when a
window would drop below its `windowLowerBound` -- as a connection error when
the connection-level window is violated and as a stream error when the
stream-level window is violated; for n ≤ 0 it is a no-op without error. -/
theorem c5_consumeBytes (conn strm : RecvFlow) (n : Int) :
    (0 < n →
      ((consumeBytesStream conn strm n).2.2 = none ↔
          conn.winLowerBound ≤ conn.win - n ∧ strm.winLowerBound ≤ strm.win - n)
        ∧ (conn.win - n < conn.winLowerBound →
            (consumeBytesStream conn strm n).2.2 = some (.conn .flowControl))
        ∧ (conn.winLowerBound ≤ conn.win - n → strm.win - n < strm.winLowerBound →
            (consumeBytesStream conn strm n).2.2 = some (.stream .flowControl))
        ∧ (consumeBytesStream conn strm n).1.win = conn.win - n
        ∧ ((consumeBytesStream conn strm n).2.2 = none →
            (consumeBytesStream conn strm n).2.1.win = strm.win - n))
      ∧ (n ≤ 0 → consumeBytesStream conn strm n = (conn, strm, none)) := by
  constructor
  · intro hn
    have hn' : ¬n ≤ 0 := by omega
    by_cases h1 : conn.win - n < conn.winLowerBound
    · have heq : consumeBytesStream conn strm n
          = (⟨conn.win - n, conn.winLowerBound, conn.winUpperBound, conn.processedWin⟩,
              strm, some (.conn .flowControl)) := by
        simp [consumeBytesStream, consumeBytesConn, hn', h1]
      rw [heq]
      refine ⟨?_, fun _ => rfl, ?_, rfl, ?_⟩
      · constructor
        · intro h
          exact (Option.some_ne_none _ h).elim
        · rintro ⟨ha, _⟩
          exact absurd ha (by omega)
      · intro ha _
        exact absurd ha (by omega)
      · intro h
        exact (Option.some_ne_none _ h).elim
    · by_cases h2 : strm.win - n < strm.winLowerBound
      · have heq : consumeBytesStream conn strm n
            = (⟨conn.win - n, conn.winLowerBound, conn.winUpperBound, conn.processedWin⟩,
                ⟨strm.win - n, strm.winLowerBound, strm.winUpperBound, strm.processedWin⟩,
                some (.stream .flowControl)) := by
          simp [consumeBytesStream, consumeBytesConn, hn', h1, h2]
        rw [heq]
        refine ⟨?_, ?_, fun _ _ => rfl, rfl, ?_⟩
        · constructor
          · intro h
            exact (Option.some_ne_none _ h).elim
          · rintro ⟨_, hb⟩
            exact absurd hb (by omega)
        · intro h
          exact absurd h h1
        · intro h
          exact (Option.some_ne_none _ h).elim
      · have heq : consumeBytesStream conn strm n
            = (⟨conn.win - n, conn.winLowerBound, conn.winUpperBound, conn.processedWin⟩,
                ⟨strm.win - n, strm.winLowerBound, strm.winUpperBound, strm.processedWin⟩,
                none) := by
          simp [consumeBytesStream, consumeBytesConn, hn', h1, h2]
        rw [heq]
        refine ⟨iff_of_true rfl ⟨by omega, by omega⟩, ?_, ?_, rfl, fun _ => rfl⟩
        · intro h
          exact absurd h h1
        · intro _ hb
          exact absurd hb h2
  · intro hn
    simp [consumeBytesStream, hn]

/-- Witness for C5 at a concrete input: consuming 10 bytes with both windows
at 100/50 and lower bounds 0 succeeds. -/
theorem c5_consumeBytes_witness :
    (consumeBytesStream ⟨100, 0, 65535, 100⟩ ⟨50, 0, 65535, 50⟩ 10).2.2 = none := by
  exact ((c5_consumeBytes ⟨100, 0, 65535, 100⟩ ⟨50, 0, 65535, 50⟩ 10).1 (by decide)).1.mpr
    (by constructor <;> decide)

/-- Floor of the base-2 logarithm by structural recursion on a fuel counter;
with fuel 64 it equals `⌊log₂ n⌋` for every `n < 2^64` (the inputs here fit
in 32 bits). -/
def log2Fuel : Nat → Nat → Nat
  | 0, _ => 0
  | f + 1, n => if n ≤ 1 then 0 else log2Fuel f (n / 2) + 1

/-- Rounding of a natural number to the nearest `float32` value (24-bit
significand, round to nearest, ties to even), as performed by Go's
`float32(x)` conversion for `0 ≤ x ≤ 2^31`.  Below `2^24` every value is
exact; otherwise the value is rounded to the nearest multiple of the unit in
the last place `2^(⌊log₂ n⌋ - 23)`, ties going to the even multiple. -/
def floatRound32 (n : Nat) : Nat :=
  if n < 16777216 then n
  else
    let e := log2Fuel 64 n - 23
    let p := 2 ^ e
    let q := n / p
    let r := n % p
    if 2 * r < p then q * p
    else if p < 2 * r then (q + 1) * p
    else if q % 2 = 0 then q * p
    else (q + 1) * p

/-- Go's `int(float32(x) * windowUpdateRatio)` with the ratio 0.5 (part_001
line 189): multiplying a `float32` by 0.5 only decrements the exponent and is
exact, and the conversion to `int` truncates, so for positive `x` the result
is `floatRound32 x / 2` rounded down.  `windowUpdate` only evaluates this for
`winUpperBound > 0`. -/
def f32HalfTrunc (x : Int) : Int :=
  Int.ofNat (floatRound32 x.toNat / 2)

/-- Embeds `flowController.updateWindow` (part_001 lines 157-168): positive deltas
that would lift the window past `maxInitialWindowSize` are an error with no
state change; otherwise `win` and `processedWin` shift by `delta` and
`winLowerBound` becomes `delta` if negative, 0 otherwise. -/
def updateWindowFC (c : RecvFlow) (delta : Int) : RecvFlow × Option HErr :=
  if 0 < delta ∧ maxInitialWindowSize - delta < c.win then (c, some .generic)
  else (⟨c.win + delta, if delta < 0 then delta else 0, c.winUpperBound,
          c.processedWin + delta⟩, none)

/-- Embeds `flowController.windowUpdate` (part_001 lines 182-202): when
`processedWin` has fallen to the threshold `int(float32(winUpperBound)*0.5)`
or below, the difference `winUpperBound - processedWin` is recredited via
`updateWindow` and a WINDOW_UPDATE for exactly that amount is enqueued (the
list collects the increments of the enqueued frames). -/
def windowUpdateFC (c : RecvFlow) : RecvFlow × List Int × Option HErr :=
  if c.winUpperBound ≤ 0 then (c, [], none)
  else
    let threshold := f32HalfTrunc c.winUpperBound
    if threshold < c.processedWin then (c, [], none)
    else
      let delta := c.winUpperBound - c.processedWin
      match updateWindowFC c delta with
      | (c', none) => (c', [delta], none)
      | (_, some _) => (c, [], some (.conn .internal))

/-- Embeds `flowController.returnBytes` (part_001 lines 138-155) for the
connection-level controller (`c.s.id == 0`): returning more bytes than were
consumed is an internal error; otherwise `processedWin` drops by `delta` and
`windowUpdate` runs.  (A stream-level controller first forwards the same
delta to this connection-level controller.) -/
def returnBytesConn (c : RecvFlow) (delta : Int) : RecvFlow × List Int × Option HErr :=
  if c.processedWin - delta < c.win then (c, [], some (.conn .internal))
  else windowUpdateFC ⟨c.win, c.winLowerBound, c.winUpperBound, c.processedWin - delta⟩

set_option maxRecDepth 8192 in
/-- C6 counterexample: a controller with `initialWindow = 2^25 + 2` has
`int(float32(2^25+2) * 0.5) = 2^24` because `float32(2^25+2)` rounds down to
`2^25`; after `returnBytes 1` from `processedWin = 2^24 + 2` the accumulated
returned amount is `2^24 + 1`, exactly 50% of the initial window (the
threshold is reached since `2 * (2^24+1) ≥ 2^25+2`), yet no WINDOW_UPDATE is
emitted, refuting the claim as stated. -/
theorem c6_returnBytes_counterexample :
    (returnBytesConn ⟨0, 0, 33554434, 16777218⟩ 1).2.1 = [] ∧
      (returnBytesConn ⟨0, 0, 33554434, 16777218⟩ 1).2.2 = none ∧
      (returnBytesConn ⟨0, 0, 33554434, 16777218⟩ 1).1.processedWin = 16777217 ∧
      2 * (33554434 - 16777217) ≥ (33554434 : Int) := by
  refine ⟨?_, ?_, ?_, by decide⟩ <;> decide

/-- Behaviour of `windowUpdate` on a controller in a sane state: at or below
the threshold it recredits `winUpperBound - processedWin` and emits one
WINDOW_UPDATE of that amount; above the threshold it does nothing. -/
theorem windowUpdateFC_spec (w lb ub pw : Int)
    (h1 : 0 < ub) (h2 : ub ≤ maxInitialWindowSize) (h3 : w ≤ pw) (h4 : pw ≤ ub) :
    (pw ≤ f32HalfTrunc ub →
        windowUpdateFC ⟨w, lb, ub, pw⟩
          = (⟨w + (ub - pw), 0, ub, ub⟩, [ub - pw], none))
      ∧ (f32HalfTrunc ub < pw → windowUpdateFC ⟨w, lb, ub, pw⟩ = (⟨w, lb, ub, pw⟩, [], none)) := by
  constructor
  · intro hth
    have e1 : ¬(ub ≤ 0) := by omega
    have e2 : ¬(f32HalfTrunc ub < pw) := not_lt.mpr hth
    have e3 : ¬(0 < ub - pw ∧ maxInitialWindowSize - (ub - pw) < w) := by omega
    have e4 : ¬(ub - pw < 0) := by omega
    have e5 : pw + (ub - pw) = ub := by omega
    dsimp only [windowUpdateFC, updateWindowFC]
    rw [if_neg e1, if_neg e2, if_neg e3, if_neg e4, e5]
  · intro hth
    have e1 : ¬(ub ≤ 0) := by omega
    dsimp only [windowUpdateFC, updateWindowFC]
    rw [if_neg e1, if_pos hth]

/-- C6 (amended): for a receive flow controller with positive
`initialWindow ≤ maxInitialWindowSize` and a return that keeps
`processedWin` between `win` and `initialWindow`, `returnBytes delta` emits
exactly one WINDOW_UPDATE whose increment is exactly the accumulated
returned-but-not-recredited amount `initialWindow - (processedWin - delta)`
and resets the accumulation (new `processedWin = initialWindow`, `win` grows
by the increment) precisely when `processedWin - delta` is at or below the
code's threshold `int(float32(initialWindow) * 0.5)` -- which equals
`⌊initialWindow / 2⌋` whenever `float32(initialWindow)` is exact, e.g. for
`initialWindow ≤ 2^24`; above that threshold no WINDOW_UPDATE is emitted. -/
theorem c6_returnBytes_amended (c : RecvFlow) (delta : Int)
    (hub : 0 < c.winUpperBound) (hmax : c.winUpperBound ≤ maxInitialWindowSize)
    (hlo : c.win ≤ c.processedWin - delta) (hhi : c.processedWin - delta ≤ c.winUpperBound) :
    (c.processedWin - delta ≤ f32HalfTrunc c.winUpperBound →
        returnBytesConn c delta
          = (⟨c.win + (c.winUpperBound - (c.processedWin - delta)), 0, c.winUpperBound,
              c.winUpperBound⟩,
             [c.winUpperBound - (c.processedWin - delta)], none))
      ∧ (f32HalfTrunc c.winUpperBound < c.processedWin - delta →
          returnBytesConn c delta
            = (⟨c.win, c.winLowerBound, c.winUpperBound, c.processedWin - delta⟩, [], none)) := by
  have hguard : ¬(c.processedWin - delta < c.win) := by omega
  have hspec := windowUpdateFC_spec c.win c.winLowerBound c.winUpperBound
    (c.processedWin - delta) hub hmax hlo hhi
  constructor
  · intro hth
    rw [returnBytesConn, if_neg hguard, hspec.1 hth]
  · intro hth
    rw [returnBytesConn, if_neg hguard, hspec.2 hth]

/-- Witness for C6 (amended): with the default initial window 65535, after
returning 40000 bytes the accumulated amount 40000 is above the threshold
32767 and one WINDOW_UPDATE of exactly 40000 is emitted, restoring
`processedWin` to 65535. -/
theorem c6_returnBytes_amended_witness :
    returnBytesConn ⟨0, 0, 65535, 65535⟩ 40000
      = (⟨40000, 0, 65535, 65535⟩, [40000], none) := by
  have h := (c6_returnBytes_amended ⟨0, 0, 65535, 65535⟩ 40000
    (by decide) (by decide) (by decide) (by decide)).1 (by decide)
  simpa using h

/-- Embeds `flowController.updateInitialWindow` (part_001 lines 170-180): the new
upper bound `winUpperBound + delta` is clamped into
`[defaultInitialWindowSize, maxInitialWindowSize]`. -/
def updateInitialWindowFC (c : RecvFlow) (delta : Int) : RecvFlow :=
  let n0 := c.winUpperBound + delta
  let n1 := if n0 < defaultInitialWindowSize then defaultInitialWindowSize else n0
  let n2 := if maxInitialWindowSize < n1 then maxInitialWindowSize else n1
  ⟨c.win, c.winLowerBound, n2, c.processedWin⟩

/-- Embeds `flowController.incrementInitialWindow` (part_001 lines 76-89): a no-op
for the connection-level controller (id 0); otherwise `updateWindow delta`
followed, on success, by `updateInitialWindow delta`. -/
def incrementInitialWindowFC (id : Nat) (c : RecvFlow) (delta : Int) :
    RecvFlow × Option HErr :=
  if id = 0 then (c, none)
  else
    match updateWindowFC c delta with
    | (c', none) => (updateInitialWindowFC c' delta, none)
    | (c', some e) => (c', some e)

/-- C7 counterexample: shrinking the initial window of a fresh stream-level
controller from 65535 by delta = -64511 (new setting value 1024) leaves
`initialWindow` at 65535 because `updateInitialWindow` clamps it from below
at `defaultInitialWindowSize`; the claim demands the new initialWindow 1024. -/
theorem c7_incrementInitialWindow_counterexample :
    (incrementInitialWindowFC 1 ⟨65535, 0, 65535, 65535⟩ (-64511)).1.winUpperBound = 65535 ∧
      (incrementInitialWindowFC 1 ⟨65535, 0, 65535, 65535⟩ (-64511)).1.winUpperBound
        ≠ 65535 + (-64511 : Int) := by
  constructor <;> decide

/-- C7 (amended): for a non-connection (id ≠ 0) receive flow controller,
unless the shift overflows (`delta > 0` with
`maxInitialWindowSize - delta < win`, which fails with no state change),
applying an INITIAL_WINDOW_SIZE delta shifts `win` and `processedWin` by
delta, sets `winLowerBound` to `min 0 delta`, and sets `initialWindow` to
`initialWindow + delta` clamped into
`[defaultInitialWindowSize, maxInitialWindowSize]` (equal to the new setting
value only when that value lies within those bounds); for the connection
controller (id 0) the operation changes nothing. -/
theorem c7_incrementInitialWindow_amended (id : Nat) (c : RecvFlow) (delta : Int) :
    (id = 0 → incrementInitialWindowFC id c delta = (c, none))
      ∧ (id ≠ 0 → 0 < delta → maxInitialWindowSize - delta < c.win →
          incrementInitialWindowFC id c delta = (c, some .generic))
      ∧ (id ≠ 0 → ¬(0 < delta ∧ maxInitialWindowSize - delta < c.win) →
          incrementInitialWindowFC id c delta
            = (⟨c.win + delta, min 0 delta,
                min maxInitialWindowSize (max defaultInitialWindowSize (c.winUpperBound + delta)),
                c.processedWin + delta⟩, none)) := by
  refine ⟨fun h => by simp [incrementInitialWindowFC, h], ?_, ?_⟩
  · intro hid h1 h2
    have hcond : 0 < delta ∧ maxInitialWindowSize - delta < c.win := ⟨h1, h2⟩
    simp only [incrementInitialWindowFC, if_neg hid, updateWindowFC, if_pos hcond]
  · intro hid h
    have hlb : (if delta < 0 then delta else 0) = min 0 delta := by
      split <;> omega
    simp only [incrementInitialWindowFC, if_neg hid, updateWindowFC, if_neg h, hlb]
    dsimp only [updateInitialWindowFC]
    simp only [Prod.mk.injEq, RecvFlow.mk.injEq, and_true, true_and]
    split <;> split <;> omega

/-- Witness for C7 (amended): raising the initial window of a fresh
stream-level controller by 1024 shifts the window and the initial window to
66559 and leaves the lower bound at `min 0 1024 = 0`. -/
theorem c7_incrementInitialWindow_amended_witness :
    incrementInitialWindowFC 1 ⟨65535, 0, 65535, 65535⟩ 1024
      = (⟨66559, 0, 66559, 66559⟩, none) := by
  have h := (c7_incrementInitialWindow_amended 1 ⟨65535, 0, 65535, 65535⟩ 1024).2.2
    (by decide) (by decide)
  simpa using h

/-- Observable effects of `allocateBytes` on the two send controllers:
credit received from the stream / connection window channel, and surplus
credit handed back via `incrementWindow`. -/
inductive AllocEvent
  | awaitStream (got : Int)
  | awaitConn (got : Int)
  | giveBackStream (amt : Int)
  | giveBackConn (amt : Int)
deriving DecidableEq

/-- Shallow embedding of the success path of `allocateBytes` (part_001 lines
325-370), given the credits `sw` and `cw` delivered by the stream and
connection window channels: the grant is `n` clipped to `sw` then to `cw`,
and any surplus is handed back through `incrementWindow`.  The event list
records the channel receives and give-backs in program order; the
close/cancel select arms are concurrency and are not modelled. -/
def allocateBytes (n sw cw : Int) : Int × List AllocEvent :=
  if n ≤ 0 then (0, [])
  else
    let n1 := if sw < n then sw else n
    let n2 := if cw < n1 then cw else n1
    (n2,
      [.awaitStream sw, .awaitConn cw]
        ++ (if n2 < sw then [.giveBackStream (sw - n2)] else [])
        ++ (if n2 < cw then [.giveBackConn (cw - n2)] else []))

/-- Total credit handed back to the stream send controller in an event list. -/
def giveBackStreamTotal (evs : List AllocEvent) : Int :=
  evs.foldr (fun e acc => match e with | .giveBackStream amt => amt + acc | _ => acc) 0

/-- Total credit handed back to the connection send controller. -/
def giveBackConnTotal (evs : List AllocEvent) : Int :=
  evs.foldr (fun e acc => match e with | .giveBackConn amt => amt + acc | _ => acc) 0

/-- C2: for n > 0, once `allocateBytes` has received stream credit `sw` and
then connection credit `cw` (the events witness the fixed order: stream
first, then connection), it grants `min n (min sw cw)`; if the grant is
short of `sw` the difference `sw - grant` goes back to the stream
controller, and likewise for `cw` and the connection controller, and in
total grant + give-back equals each claimed credit, so no credit is lost. -/
theorem c2_allocateBytes (n sw cw : Int) (hn : 0 < n) :
    (allocateBytes n sw cw).1 = min n (min sw cw)
      ∧ (allocateBytes n sw cw).2.take 2 = [.awaitStream sw, .awaitConn cw]
      ∧ ((allocateBytes n sw cw).1 < sw →
          AllocEvent.giveBackStream (sw - (allocateBytes n sw cw).1)
            ∈ (allocateBytes n sw cw).2)
      ∧ ((allocateBytes n sw cw).1 < cw →
          AllocEvent.giveBackConn (cw - (allocateBytes n sw cw).1)
            ∈ (allocateBytes n sw cw).2)
      ∧ (allocateBytes n sw cw).1 + giveBackStreamTotal (allocateBytes n sw cw).2 = sw
      ∧ (allocateBytes n sw cw).1 + giveBackConnTotal (allocateBytes n sw cw).2 = cw := by
  have hn' : ¬n ≤ 0 := by omega
  unfold allocateBytes
  simp only [hn', if_false]
  refine ⟨?_, ?_, ?_, ?_, ?_, ?_⟩ <;>
    split_ifs <;>
      simp_all [giveBackStreamTotal, giveBackConnTotal, List.mem_append] <;> omega

/-- Witness for C2 at a concrete input: requesting 5 bytes with stream
credit 3 and connection credit 7 grants 3 and returns 4 to the connection
controller. -/
theorem c2_allocateBytes_witness :
    (allocateBytes 5 3 7).1 = 3 ∧
      AllocEvent.giveBackConn 4 ∈ (allocateBytes 5 3 7).2 := by
  have h := c2_allocateBytes 5 3 7 (by decide)
  exact ⟨by rw [h.1]; decide, by simpa using h.2.2.2.1 (by rw [h.1]; decide)⟩

/-- Setting identifiers (`SettingID`, a `uint16`). Modelled from the spec:
the constant declarations are not under src/; the numeric codes follow the
wire codes of the six setting names the spec's table lists. Only their
distinctness matters here. -/
def settingHeaderTableSize : Nat := 1

def settingEnablePush : Nat := 2

def settingMaxConcurrentStreams : Nat := 3

def settingInitialWindowSize : Nat := 4

def settingMaxFrameSize : Nat := 5

def settingMaxHeaderListSize : Nat := 6

/-- Modelled from the spec: bounds for MAX_FRAME_SIZE, declared outside
src/; the spec's table gives the valid range [16384, 16777215]. -/
def maxFrameSizeLowerBound : Nat := 16384

def maxFrameSizeUpperBound : Nat := 16777215

/-- The value of `maxInitialWindowSize` compared against a `uint32` setting value. -/
def maxInitialWindowSizeN : Nat := 2147483647

/-- A `Settings` store: an ordered sequence of (id, value) pairs. -/
abbrev Settings := List (Nat × Nat)

/-- Embeds the first-match lookup `Settings.value` (util.go lines 204-211). -/
def settingsLookup (s : Settings) (id : Nat) : Option Nat :=
  match s with
  | [] => none
  | (i, v) :: rest => if i = id then some v else settingsLookup rest id

/-- Modelled from the spec: the default-value constants referenced by
`Settings.Value` are declared outside src/; the spec's table gives
HEADER_TABLE_SIZE 4096, ENABLE_PUSH 1, INITIAL_WINDOW_SIZE 65535,
MAX_FRAME_SIZE 16384, and "unlimited" (here the full 32-bit range) for
MAX_CONCURRENT_STREAMS; `Value` itself returns 0 for MAX_HEADER_LIST_SIZE
and unknown ids. -/
def settingDefault (id : Nat) : Nat :=
  if id = settingHeaderTableSize then 4096
  else if id = settingEnablePush then 1
  else if id = settingMaxConcurrentStreams then 4294967295
  else if id = settingInitialWindowSize then 65535
  else if id = settingMaxFrameSize then 16384
  else 0

/-- Embeds `Settings.Value` (util.go lines 150-170): the stored value if present,
otherwise the default for the id. -/
def settingsValue (s : Settings) (id : Nat) : Nat :=
  match settingsLookup s id with
  | some v => v
  | none => settingDefault id

/-- The validation in `Settings.SetValue` (util.go lines 172-184). -/
def setValueOk (id v : Nat) : Prop :=
  (id = settingEnablePush → v < 2)
    ∧ (id = settingInitialWindowSize → v ≤ maxInitialWindowSizeN)
    ∧ (id = settingMaxFrameSize → maxFrameSizeLowerBound ≤ v ∧ v ≤ maxFrameSizeUpperBound)

instance (id v : Nat) : Decidable (setValueOk id v) := by
  unfold setValueOk
  infer_instance

/-- The overwrite-or-append loop of `Settings.SetValue` (util.go lines
190-200): the first entry with a matching id is overwritten, otherwise the
pair is appended. -/
def settingsStore (s : Settings) (id v : Nat) : Settings :=
  match s with
  | [] => [(id, v)]
  | (i, w) :: rest =>
    if i = id then (id, v) :: rest else (i, w) :: settingsStore rest id v

/-- Embeds `Settings.SetValue` (util.go lines 172-202): validation first (an error
leaves the store untouched), then overwrite-or-append. -/
def setValue (s : Settings) (id v : Nat) : Settings × Bool :=
  if setValueOk id v then (settingsStore s id v, true)
  else (s, false)

theorem settingsLookup_store (s : Settings) (id v : Nat) :
    settingsLookup (settingsStore s id v) id = some v := by
  induction s with
  | nil => simp [settingsStore, settingsLookup]
  | cons hd rest ih =>
    obtain ⟨i, w⟩ := hd
    by_cases h : i = id
    · simp [settingsStore, settingsLookup, h]
    · simp [settingsStore, settingsLookup, h, ih]

theorem settingsStore_length_of_mem (s : Settings) (id v : Nat)
    (h : (settingsLookup s id).isSome) :
    (settingsStore s id v).length = s.length := by
  induction s with
  | nil => simp [settingsLookup] at h
  | cons hd rest ih =>
    obtain ⟨i, w⟩ := hd
    by_cases hi : i = id
    · simp [settingsStore, hi]
    · simp only [settingsLookup, if_neg hi] at h
      simp [settingsStore, hi, ih h]

/-- C8: `SetValue id v` fails exactly when (id = ENABLE_PUSH and v ≥ 2), or
(id = INITIAL_WINDOW_SIZE and v > 2^31 - 1), or (id = MAX_FRAME_SIZE and v
outside [16384, 16777215]); on failure the store is unchanged; on success a
duplicate id overwrites in place (the sequence length does not grow) and a
subsequent `Value id` returns v. -/
theorem c8_setValue (s : Settings) (id v : Nat) :
    ((setValue s id v).2 = false ↔
        (id = settingEnablePush ∧ 2 ≤ v)
          ∨ (id = settingInitialWindowSize ∧ maxInitialWindowSizeN < v)
          ∨ (id = settingMaxFrameSize ∧
              (v < maxFrameSizeLowerBound ∨ maxFrameSizeUpperBound < v)))
      ∧ ((setValue s id v).2 = false → (setValue s id v).1 = s)
      ∧ ((setValue s id v).2 = true → (settingsLookup s id).isSome →
          (setValue s id v).1.length = s.length)
      ∧ ((setValue s id v).2 = true → settingsValue (setValue s id v).1 id = v) := by
  by_cases hok : setValueOk id v
  · have heq : setValue s id v = (settingsStore s id v, true) := by
      simp [setValue, hok]
    rw [heq]
    refine ⟨?_, ?_, ?_, ?_⟩
    · simp only [Bool.true_eq_false, false_iff]
      rintro (⟨h1, h2⟩ | ⟨h1, h2⟩ | ⟨h1, h2⟩)
      · exact absurd (hok.1 h1) (by omega)
      · exact absurd (hok.2.1 h1) (by omega)
      · rcases h2 with h2 | h2 <;> exact absurd (hok.2.2 h1) (by omega)
    · intro h
      exact absurd h (by simp)
    · intro _ hmem
      exact settingsStore_length_of_mem s id v hmem
    · intro _
      simp [settingsValue, settingsLookup_store]
  · have heq : setValue s id v = (s, false) := by
      simp [setValue, hok]
    rw [heq]
    refine ⟨?_, fun _ => rfl, ?_, ?_⟩
    · simp only [true_iff]
      unfold setValueOk at hok
      by_cases h1 : id = settingEnablePush
      · left
        refine ⟨h1, ?_⟩
        by_contra hv
        exact hok ⟨fun _ => by omega, fun h2 => absurd (h1 ▸ h2) (by decide),
          fun h2 => absurd (h1 ▸ h2) (by decide)⟩
      · by_cases h2 : id = settingInitialWindowSize
        · right; left
          refine ⟨h2, ?_⟩
          by_contra hv
          exact hok ⟨fun h3 => absurd (h2 ▸ h3) (by decide), fun _ => by omega,
            fun h3 => absurd (h2 ▸ h3) (by decide)⟩
        · by_cases h3 : id = settingMaxFrameSize
          · right; right
            refine ⟨h3, ?_⟩
            by_contra hv
            exact hok ⟨fun h4 => absurd (h3 ▸ h4) (by decide),
              fun h4 => absurd (h3 ▸ h4) (by decide), fun _ => by omega⟩
          · exact absurd ⟨fun h => absurd h h1, fun h => absurd h h2,
              fun h => absurd h h3⟩ hok
    · intro h
      exact absurd h (by simp)
    · intro h
      exact absurd h (by simp)

/-- Witness for C8 at concrete inputs: overwriting an existing
INITIAL_WINDOW_SIZE entry keeps the sequence at one entry and a subsequent
lookup returns the new value. -/
theorem c8_setValue_witness :
    (setValue [(settingInitialWindowSize, 65535)] settingInitialWindowSize 1024).1.length = 1
      ∧ settingsValue
          (setValue [(settingInitialWindowSize, 65535)] settingInitialWindowSize 1024).1
          settingInitialWindowSize = 1024 := by
  have h := c8_setValue [(settingInitialWindowSize, 65535)] settingInitialWindowSize 1024
  exact ⟨h.2.2.1 (by decide) (by decide), h.2.2.2 (by decide)⟩

/-- ASCII lower-casing of one character, as Go's `strings.ToLower` does for
ASCII input (util.go canonicalization works on ASCII header names; Lean
`Char`s here stand for the string's bytes). -/
def lowerChar (c : Char) : Char :=
  if 65 ≤ c.toNat ∧ c.toNat ≤ 90 then Char.ofNat (c.toNat + 32) else c

/-- Models `strings.ToLower` restricted to ASCII: each character is
lower-cased, characters outside the ASCII uppercase range are unchanged (Go
applies Unicode lowering to non-ASCII runes, which never produces an ASCII
uppercase letter, so the properties proved here are insensitive to the
restriction). -/
def goToLower (s : String) : String :=
  String.mk (s.data.map lowerChar)

/-- Embeds `validHeaderKey` (util.go lines 508-519): nonempty, every byte
below 127 and no ASCII uppercase letter. -/
def validHeaderKey (s : String) : Bool :=
  !s.data.isEmpty && s.data.all fun c => c.toNat < 127 && !(65 ≤ c.toNat && c.toNat ≤ 90)

/-- The header names registered in `commonHeader` by `init` (util.go lines
605-716); the map stores each name under the name itself and under its
lower-cased form, both mapping to the lower-cased form. -/
def commonHeaderBase : List String :=
  ["Accept", "Accept-Charset", "Accept-Encoding", "Accept-Language",
   "Accept-Ranges", "Age", "Allow", "ALPN", "Authentication-Info",
   "Authorization", "Cache-Control", "Connection", "Content-Disposition",
   "Content-Encoding", "Content-Language", "Content-Length",
   "Content-Location", "Content-Range", "Content-Type", "Cookie", "DASL",
   "DAV", "Date", "Depth", "Destination", "ETag", "Expect", "Expires",
   "Forwarded", "From", "Host", "HTTP2-Settings", "If", "If-Match",
   "If-Modified-Since", "If-None-Match", "If-Range", "If-Schedule-Tag-Match",
   "If-Unmodified-Since", "Last-Modified", "Location", "Lock-Token",
   "Max-Forwards", "MIME-Version", "Ordering-Type", "Origin", "Overwrite",
   "Position", "Pragma", "Prefer", "Preference-Applied", "Proxy-Authenticate",
   "Proxy-Authentication-Info", "Proxy-Authorization", "Public-Key-Pins",
   "Public-Key-Pins-Report-Only", "Range", "Referer", "Retry-After",
   "Schedule-Reply", "Schedule-Tag", "Sec-WebSocket-Accept",
   "Sec-WebSocket-Extensions", "Sec-WebSocket-Key", "Sec-WebSocket-Protocol",
   "Sec-WebSocket-Version", "Server", "Set-Cookie", "SLUG",
   "Strict-Transport-Security", "TE", "Timeout", "Trailer",
   "Transfer-Encoding", "Upgrade", "User-Agent", "Vary", "Via",
   "WWW-Authenticate", "Warning", "Access-Control-Allow-Credentials",
   "Access-Control-Allow-Headers", "Access-Control-Allow-Methods",
   "Access-Control-Allow-Origin", "Access-Control-Max-Age",
   "Access-Control-Request-Method", "Access-Control-Request-Headers",
   "Compliance", "Content-Transfer-Encoding", "Cost", "EDIINT-Features",
   "Message-ID", "Non-Compliance", "Optional", "Resolution-Hint",
   "Resolver-Location", "SubOK", "Subst", "Title", "UA-Color", "UA-Media",
   "UA-Pixels", "UA-Resolution", "UA-Windowpixels", "Version",
   "X-Device-Accept", "X-Device-Accept-Charset", "X-Device-Accept-Encoding",
   "X-Device-Accept-Language", "X-Device-User-Agent"]

/-- Lookup in the `commonHeader` map: a string hits the map iff it equals a
registered name or that name's lower-cased form; the stored value is the
lower-cased form. -/
def commonHeaderFind (s : String) : Option String :=
  (commonHeaderBase.find? fun v => s = v || s = goToLower v).map goToLower

/-- Embeds `CanonicalHTTP2HeaderKey` (util.go lines 498-506). -/
def CanonicalHTTP2HeaderKey (s : String) : String :=
  match commonHeaderFind s with
  | some v => v
  | none => if validHeaderKey s then s else goToLower s

/-- A string without ASCII uppercase letters ('A'-'Z'). -/
def NoUpper (s : String) : Prop :=
  ∀ c ∈ s.data, ¬(65 ≤ c.toNat ∧ c.toNat ≤ 90)

theorem toNat_ofNat_small (n : Nat) (h : n < 55296) : (Char.ofNat n).toNat = n := by
  rw [Char.ofNat, dif_pos (Or.inl h : Nat.isValidChar n)]
  simp [Char.ofNatAux, Char.toNat, UInt32.ofNat', UInt32.toNat]

theorem lowerChar_not_upper (c : Char) :
    ¬(65 ≤ (lowerChar c).toNat ∧ (lowerChar c).toNat ≤ 90) := by
  unfold lowerChar
  split
  · next h =>
    rw [toNat_ofNat_small (c.toNat + 32) (by omega)]
    omega
  · next h => exact h

theorem lowerChar_eq_self (c : Char) (h : ¬(65 ≤ c.toNat ∧ c.toNat ≤ 90)) :
    lowerChar c = c := by
  unfold lowerChar
  exact if_neg h

theorem goToLower_noUpper (s : String) : NoUpper (goToLower s) := by
  intro c hc
  simp only [goToLower, List.mem_map] at hc
  obtain ⟨c0, _, rfl⟩ := hc
  exact lowerChar_not_upper c0

theorem goToLower_eq_self (s : String) (h : NoUpper s) : goToLower s = s := by
  obtain ⟨l⟩ := s
  simp only [goToLower]
  congr 1
  induction l with
  | nil => rfl
  | cons c rest ih =>
    have hc := h c (by simp)
    rw [List.map_cons, lowerChar_eq_self c hc, ih fun x hx => h x (by simp [hx])]

theorem validHeaderKey_noUpper (s : String) (h : validHeaderKey s = true) : NoUpper s := by
  intro c hc hcon
  have hparts : (!s.data.isEmpty) = true
      ∧ (s.data.all fun c => c.toNat < 127 && !(65 ≤ c.toNat && c.toNat ≤ 90)) = true := by
    have h' := h
    rw [validHeaderKey, Bool.and_eq_true] at h'
    exact h'
  have hone := List.all_eq_true.mp hparts.2 c hc
  simp only [Bool.and_eq_true, decide_eq_true_eq, Bool.not_eq_true',
    Bool.and_eq_false_iff, decide_eq_false_iff_not] at hone
  omega

theorem canonical_noUpper (s : String) : NoUpper (CanonicalHTTP2HeaderKey s) := by
  cases hfind : commonHeaderFind s with
  | some w =>
    have hred : CanonicalHTTP2HeaderKey s = w := by
      rw [CanonicalHTTP2HeaderKey, hfind]
    rw [hred]
    obtain ⟨v0, hv0, rfl⟩ := Option.map_eq_some'.mp hfind
    exact goToLower_noUpper v0
  | none =>
    have hred : CanonicalHTTP2HeaderKey s
        = if validHeaderKey s then s else goToLower s := by
      rw [CanonicalHTTP2HeaderKey, hfind]
    rw [hred]
    split
    · next hvalid => exact validHeaderKey_noUpper s hvalid
    · exact goToLower_noUpper s

theorem canonical_fixed_of_noUpper (u : String) (h : NoUpper u) :
    CanonicalHTTP2HeaderKey u = u := by
  cases hfind : commonHeaderFind u with
  | some w =>
    have hred : CanonicalHTTP2HeaderKey u = w := by
      rw [CanonicalHTTP2HeaderKey, hfind]
    rw [hred]
    obtain ⟨v0, hv0, rfl⟩ := Option.map_eq_some'.mp hfind
    have hp := List.find?_some hv0
    simp only [Bool.or_eq_true, decide_eq_true_eq] at hp
    rcases hp with hp | hp
    · rw [← hp, goToLower_eq_self u h]
    · rw [← hp]
  | none =>
    have hred : CanonicalHTTP2HeaderKey u
        = if validHeaderKey u then u else goToLower u := by
      rw [CanonicalHTTP2HeaderKey, hfind]
    rw [hred]
    split
    · rfl
    · exact goToLower_eq_self u h

/-- C10: `CanonicalHTTP2HeaderKey` never returns a string containing an
ASCII uppercase letter ('A'-'Z'), and it is idempotent. -/
theorem c10_canonical_key (s : String) :
    NoUpper (CanonicalHTTP2HeaderKey s)
      ∧ CanonicalHTTP2HeaderKey (CanonicalHTTP2HeaderKey s)
        = CanonicalHTTP2HeaderKey s :=
  ⟨canonical_noUpper s, canonical_fixed_of_noUpper _ (canonical_noUpper s)⟩

/-- A `Header` (`map[string][]string`): modelled as an association list of
key and value list, in insertion order. -/
abbrev Header := List (String × List String)

/-- Appends a value to a key's slice, creating the entry if absent
(`h[key] = append(h[key], value)`). -/
def headerAppend (h : Header) (k v : String) : Header :=
  match h with
  | [] => [(k, [v])]
  | (k', vs) :: rest =>
    if k' = k then (k', vs ++ [v]) :: rest
    else (k', vs) :: headerAppend rest k v

/-- Embeds `Header.Add` (util.go lines 351-356): keys starting with a colon
are skipped, the key is canonicalized and the value appended.  (Go would
panic on an empty key; the claims only involve nonempty keys.) -/
def headerAdd (h : Header) (k v : String) : Header :=
  if k.data.head? = some ':' then h
  else headerAppend h (CanonicalHTTP2HeaderKey k) v

/-- Embeds `badHeader` (util.go lines 552-566). -/
def badHeader (k : String) : Bool :=
  k = "connection" || k = "keep-alive" || k = "proxy-connection"
    || k = "transfer-encoding" || k = "host" || k = "upgrade"

/-- ASCII white-space as trimmed by `strings.TrimSpace` (the claims involve
only ASCII cookie values). -/
def isSpaceChar (c : Char) : Bool :=
  c.toNat = 32 || c.toNat = 9 || c.toNat = 10 || c.toNat = 11
    || c.toNat = 12 || c.toNat = 13

/-- Models `strings.TrimSpace` for ASCII white-space. -/
def trimSpace (s : String) : String :=
  String.mk (((s.data.dropWhile isSpaceChar).reverse.dropWhile isSpaceChar).reverse)

/-- The splitting of `strings.Split(v, ";")` on the underlying characters. -/
def splitChList : List Char → List (List Char)
  | [] => [[]]
  | c :: rest =>
    if c = ';' then [] :: splitChList rest
    else
      match splitChList rest with
      | [] => [[c]]
      | h :: r => (c :: h) :: r

/-- Models `strings.Split(v, ";")`. -/
def splitSemi (s : String) : List String :=
  (splitChList s.data).map String.mk

/-- Models `strings.IndexByte(v, ';') > 0`: a semicolon occurs at a
strictly positive index. -/
def hasSemiAfterFirst (s : String) : Bool :=
  match s.data.findIdx? (fun c => c = ';') with
  | some i => 0 < i
  | none => false

/-- Embeds `Header.addHeader` (util.go lines 417-447) over the entries of
the input map in a given iteration order (Go map order is unspecified; the
claims involve single-entry maps).  Each key is canonicalized; deny-listed
keys are skipped; cookie values containing an interior semicolon are split
and trimmed; the `te` check is the source's verbatim condition
`k == "te" && len(vv) != 1 && strings.ToLower(vv[0]) != "trailers"` (for
empty value lists Go would panic on `vv[0]`; modelled with the empty
string). -/
def addHeader (h : Header) (entries : List (String × List String)) :
    Except String Header :=
  match entries with
  | [] => .ok h
  | (k0, vv) :: rest =>
    let k := CanonicalHTTP2HeaderKey k0
    if badHeader k then addHeader h rest
    else if k = "cookie" then
      addHeader
        (vv.foldl
          (fun acc v =>
            if hasSemiAfterFirst v then
              (splitSemi v).foldl (fun a c => headerAdd a k (trimSpace c)) acc
            else headerAdd acc k v)
          h)
        rest
    else if k = "te" ∧ vv.length ≠ 1 ∧ goToLower (vv.headD "") ≠ "trailers" then
      .error "bad value for te"
    else addHeader (vv.foldl (fun acc v => headerAdd acc k v) h) rest

/-- C9 evaluation at the failing input: a header map whose single `te` entry
carries the single value `gzip` (not `trailers`) is accepted by `addHeader`
-- the source's `&&` makes the value check unreachable for single-value
lists -- while the claim and the spec require a malformed-header error; a
`te: trailers` entry is accepted as the claim states, and a two-value
`te` list whose first value is not `trailers` does error, showing the
condition that was actually implemented. -/
theorem c9_te_check_eval :
    addHeader [] [("te", ["gzip"])] = .ok [("te", ["gzip"])]
      ∧ addHeader [] [("te", ["trailers"])] = .ok [("te", ["trailers"])]
      ∧ addHeader [] [("te", ["gzip", "chunked"])] = .error "bad value for te" := by
  refine ⟨?_, ?_, ?_⟩ <;> rfl

end Http2
